import Mathlib

/-!
# Verification of the event-aligned spike-synchrony pipeline (`sync.py`)

Shallow embedding of the pipeline in `sync.py`.  Real numbers are modelled by
`ℚ`.  The two external collaborators are modelled as parameters:

* the synchrony-measurement capability (`pyspike`): its profile form
  (`spk.spike_sync_profile`) and scalar form (`spk.spike_sync`) are passed in
  as function arguments;
* the persistence layer: a pickle file is modelled by its already-decoded
  content (`Recording`), and a directory by a list of (filename, content)
  pairs.  Filenames are modelled as `List Char`.

Plotting is a pure sink and is not modelled; the observable outputs of each
function (returned values, the printed count-mismatch warning, the uncaught
exception on a bad filename) are returned as data.
-/

/-- Model of a `pyspike.SpikeTrain(times, edges)` object: the adjusted spike
times (in seconds) together with the declared edge times. -/
structure SpikeTrain where
  spikes : List ℚ
  edges : ℚ × ℚ
  deriving Repr, DecidableEq

/-- A `stim_trains` entry is either a bare sample index or a list of sample
indices; `sync.py` lines 28-29 normalise the bare form to a one-element
list. -/
inductive StimEntry where
  | single (t : ℤ)
  | group (ts : List ℤ)
  deriving Repr, DecidableEq

/-- The timestamp list a stimulus entry is normalised to (lines 28-29): a bare
index becomes a one-element list, a list is kept as is. -/
def StimEntry.timestamps : StimEntry → List ℤ
  | .single t => [t]
  | .group ts => ts

/-- Decoded content of one recording pickle (lines 14-16):
`unit_spike_train_dict` is an insertion-ordered mapping unit id → spike sample
indices, `stim_trains` the stimulus entries, `sampling_rate` in samples/s. -/
structure Recording where
  unit_spike_train_dict : List (ℕ × List ℤ)
  stim_trains : List StimEntry
  sampling_rate : ℚ
  deriving Repr, DecidableEq

/-- One element of the `stim_event_spike_trains` list built in lines 50-54. -/
structure StimEvent where
  stim_index : ℕ
  stim_time : ℤ
  spike_trains : List (ℕ × SpikeTrain)
  deriving Repr, DecidableEq

/-- Python `int()` applied to a rational: truncation toward zero, i.e. the
truncated division of the numerator by the (positive) denominator.
`truncToward_eq` below restates it through `Int.floor`/`Int.ceil`. -/
def truncToward (q : ℚ) : ℤ := q.num.tdiv q.den

/-- `extract_spike_trains_from_pickle` (lines 8-63), with the pickle already
decoded into `data`.  Returns the extracted events together with the
count-mismatch warning of lines 59-61, as `some (extracted, expected)` exactly
when the counts differ.  The parameters `plot_start_time` and
`extract_entire_session` appear in the Python signature but are never read in
the body; they are kept here (unused) to mirror the source. -/
def extract_spike_trains_from_pickle (data : Recording)
    (pre_stimulus_time plot_start_time post_stimulus_time : ℚ)
    (extract_entire_session : Bool) :
    List StimEvent × Option (ℕ × ℕ) :=
  let pre_stimulus_samples := truncToward (pre_stimulus_time * data.sampling_rate)
  let post_stimulus_samples := truncToward (post_stimulus_time * data.sampling_rate)
  let stim_event_spike_trains := data.stim_trains.enum.filterMap (fun p =>
    match p.2.timestamps with
    | [] => none
    | stim_time :: _ =>
      let start_time := stim_time + pre_stimulus_samples
      let end_time := stim_time + post_stimulus_samples
      let spike_trains := data.unit_spike_train_dict.map (fun u =>
        let spikes_in_window := u.2.filter (fun t => decide (start_time ≤ t ∧ t ≤ end_time))
        let adjusted_spike_times := spikes_in_window.map
          (fun t => ((t - stim_time : ℤ) : ℚ) / data.sampling_rate)
        (u.1, SpikeTrain.mk adjusted_spike_times (pre_stimulus_time, post_stimulus_time)))
      some { stim_index := p.1, stim_time := stim_time, spike_trains := spike_trains })
  let warning : Option (ℕ × ℕ) :=
    if stim_event_spike_trains.length = data.stim_trains.length then none
    else some (stim_event_spike_trains.length, data.stim_trains.length)
  (stim_event_spike_trains, warning)

/-- Consecutive differences `x[1:] - x[:-1]` (line 81). -/
def diffs : List ℚ → List ℚ
  | a :: b :: rest => (b - a) :: diffs (b :: rest)
  | _ => []

/-- Result of `spk.spike_sync_profile`: adaptive sample positions `x` and raw
curve values `y`.  A black box per the capability contract. -/
structure SyncProfile where
  x : List ℚ
  y : List ℚ
  deriving Repr, DecidableEq

/-- The normalisation step of line 77: the capability's raw curve for one
event, each value divided by the number of unit time-series supplied for that
event. -/
def normalized_sync_profile (spike_sync_profile : List SpikeTrain → SyncProfile)
    (event : StimEvent) : List ℚ :=
  let spike_trains := event.spike_trains.map Prod.snd
  (spike_sync_profile spike_trains).y.map (fun v => v / (spike_trains.length : ℚ))

/-- The `min_length` accumulated in lines 67/79: minimum length over the
collected profiles.  For an empty collection the Python value stays `inf` but
is never used to truncate anything; the model returns `0` there. -/
def minLength (ps : List (List ℚ)) : ℕ :=
  match ps.map List.length with
  | [] => 0
  | n :: ns => ns.foldl min n

/-- `np.mean` of a one-dimensional list: `sum / length`.  The source only
applies it to non-empty data; on `[]` the model yields `0` (where NumPy would
produce NaN). -/
def listMean (l : List ℚ) : ℚ := l.sum / (l.length : ℚ)

/-- `calculate_sync_profiles` (lines 65-94), parameterised by the synchrony
capability's profile form.  The loop of lines 71-81 collects, for each event
with more than one spike train, the normalised profile and the consecutive
differences of the returned sample positions; lines 83-94 truncate to the
minimum length and average.  Returns
`(avg_sync_profile, avg_sync_value, adaptive_time_windows)`. -/
def calculate_sync_profiles (spike_sync_profile : List SpikeTrain → SyncProfile)
    (stim_event_spike_trains : List StimEvent) : List ℚ × ℚ × List ℚ :=
  let qualifying := stim_event_spike_trains.filter
    (fun event => decide (1 < event.spike_trains.length))
  let sync_profiles := qualifying.map (normalized_sync_profile spike_sync_profile)
  let adaptive_time_windows := qualifying.flatMap
    (fun event => diffs (spike_sync_profile (event.spike_trains.map Prod.snd)).x)
  let min_length := minLength sync_profiles
  let truncated_sync_profiles := sync_profiles.map (fun profile => profile.take min_length)
  if truncated_sync_profiles.isEmpty then ([], 0, adaptive_time_windows)
  else
    let avg_sync_profile := (List.range min_length).map (fun i =>
      (truncated_sync_profiles.map (fun profile => profile.getD i 0)).sum
        / (truncated_sync_profiles.length : ℚ))
    (avg_sync_profile, listMean avg_sync_profile, adaptive_time_windows)

/-- `calculate_session_sync_profile` (lines 127-137), parameterised by the
synchrony capability's scalar form `spike_sync`: all events' spike trains are
concatenated (event boundaries ignored) and the scalar capability is invoked
once when more than one train is present, else the value is `0`. -/
def calculate_session_sync_profile (spike_sync : List SpikeTrain → ℚ)
    (stim_event_spike_trains : List StimEvent) : ℚ :=
  let spike_trains := stim_event_spike_trains.flatMap
    (fun event => event.spike_trains.map Prod.snd)
  if 1 < spike_trains.length then spike_sync spike_trains else 0

/-- Python `str.split(sep)` for a one-character separator, on filenames
modelled as `List Char`: always returns at least one (possibly empty) piece. -/
def splitOnChar (sep : Char) : List Char → List (List Char)
  | [] => [[]]
  | c :: rest =>
    match splitOnChar sep rest with
    | [] => [[]]
    | g :: gs => if c = sep then [] :: g :: gs else (c :: g) :: gs

/-- Python `str.replace('.pkl', '')`: delete every (left-to-right,
non-overlapping) occurrence of `.pkl`. -/
def removeDotPkl : List Char → List Char
  | '.' :: 'p' :: 'k' :: 'l' :: rest => removeDotPkl rest
  | c :: rest => c :: removeDotPkl rest
  | [] => []

/-- Python `str.endswith('.pkl')` on a `List Char` filename. -/
def endsWithDotPkl (s : List Char) : Bool :=
  List.isSuffixOf ['.', 'p', 'k', 'l'] s

/-- Decimal digit-string parsing used when modelling `strptime` field
matching: `some` of the value when the string is non-empty and all digits. -/
def digitsToNat? (s : List Char) : Option ℕ :=
  if s ≠ [] ∧ s.all Char.isDigit then
    some (s.foldl (fun n c => 10 * n + (c.toNat - '0'.toNat)) 0)
  else none

/-- `%b` month abbreviations accepted by `datetime.strptime` (modulo Python's
case-insensitive matching, which no filename in scope exercises). -/
def monthNumber : List Char → Option ℕ
  | ['J', 'a', 'n'] => some 1
  | ['F', 'e', 'b'] => some 2
  | ['M', 'a', 'r'] => some 3
  | ['A', 'p', 'r'] => some 4
  | ['M', 'a', 'y'] => some 5
  | ['J', 'u', 'n'] => some 6
  | ['J', 'u', 'l'] => some 7
  | ['A', 'u', 'g'] => some 8
  | ['S', 'e', 'p'] => some 9
  | ['O', 'c', 't'] => some 10
  | ['N', 'o', 'v'] => some 11
  | ['D', 'e', 'c'] => some 12
  | _ => none

/-- Day count of a month, with Gregorian leap years, as `datetime` validates
it. -/
def daysInMonth (y m : ℕ) : ℕ :=
  if m = 2 then
    if (y % 4 = 0 ∧ y % 100 ≠ 0) ∨ y % 400 = 0 then 29 else 28
  else if m = 4 ∨ m = 6 ∨ m = 9 ∨ m = 11 then 30 else 31

/-- Model of `datetime.strptime(token, "%d-%b-%Y")` as `(year, month, day)`;
`none` models the `ValueError` raised on a malformed token (`%d` matches one
or two digits giving a valid day of the month, `%Y` exactly four digits). -/
def parseDateToken (s : List Char) : Option (ℕ × ℕ × ℕ) :=
  match splitOnChar '-' s with
  | [d, mon, y] =>
    match digitsToNat? d, monthNumber mon, digitsToNat? y with
    | some dv, some mv, some yv =>
      if d.length ≤ 2 ∧ y.length = 4 ∧ 1 ≤ dv ∧ dv ≤ daysInMonth yv mv then
        some (yv, mv, dv)
      else none
    | _, _, _ => none
  | _ => none

/-- The sort key of line 144: `split('_')[1]` (the portion of the filename
after the first underscore, up to the next one — `none` models the
`IndexError` when no underscore is present), with `.pkl` removed, parsed as a
`%d-%b-%Y` date. -/
def session_date_key (fname : List Char) : Option (ℕ × ℕ × ℕ) :=
  match (splitOnChar '_' fname).get? 1 with
  | some tok => parseDateToken (removeDotPkl tok)
  | none => none

/-- `datetime` comparison on `(year, month, day)` triples: lexicographic. -/
def dateLeb (a b : ℕ × ℕ × ℕ) : Bool :=
  decide (a.1 < b.1) ||
    (decide (a.1 = b.1) && (decide (a.2.1 < b.2.1) ||
      (decide (a.2.1 = b.2.1) && decide (a.2.2 ≤ b.2.2))))

/-- The session name of line 151: the filename portion before the first
`.`. -/
def session_name (fname : List Char) : List Char :=
  (splitOnChar '.' fname).headD []

/-- The default value `1.9` of the `post_stimulus_time` parameter of
`extract_spike_trains_from_pickle` (line 8).  The call at line 154 passes
`full_post_stimulus_time` as the third *positional* argument, which Python
binds to `plot_start_time`; `post_stimulus_time` therefore keeps this
default there. -/
def extract_default_post_stimulus_time : ℚ := 19 / 10

/-- `process_multiple_sessions_from_directory` (lines 139-175), parameterised
by the two synchrony-capability forms.  The directory listing is modelled as a
list of (filename, decoded recording) pairs.  Returns `avg_sync_values`
paired with `session_names` in processing order; `Except.error` models the
uncaught exception from line 144 when some eligible filename's date token does
not parse (Python raises inside `sort`, before any file is processed).
Line 154 resolves to
`extract_spike_trains_from_pickle(file, pre_stimulus_time,
full_post_stimulus_time, 1.9, True)` by Python positional-argument binding;
the per-session profile computation and all plotting are presentation-only
side effects and are dropped. -/
def process_multiple_sessions_from_directory
    (spike_sync_profile : List SpikeTrain → SyncProfile)
    (spike_sync : List SpikeTrain → ℚ)
    (directory : List (List Char × Recording))
    (pre_stimulus_time plot_start_time post_stimulus_time full_post_stimulus_time : ℚ) :
    Except (List Char) (List (List Char × ℚ)) :=
  let file_paths := directory.filter (fun f => endsWithDotPkl f.1)
  if file_paths.all (fun f => (session_date_key f.1).isSome) then
    let sorted_paths := file_paths.mergeSort (fun a b =>
      dateLeb ((session_date_key a.1).getD (0, 0, 0)) ((session_date_key b.1).getD (0, 0, 0)))
    Except.ok (sorted_paths.map (fun f =>
      let session_spike_trains := (extract_spike_trains_from_pickle f.2
        pre_stimulus_time full_post_stimulus_time extract_default_post_stimulus_time true).1
      let avg_sync_value_session :=
        calculate_session_sync_profile spike_sync session_spike_trains
      (session_name f.1, avg_sync_value_session)))
  else Except.error ['F', 'i', 'l', 'e', 'n', 'a', 'm', 'e', 'D', 'a', 't', 'e']

/-! ## Concrete fixtures used by closed theorems and witnesses -/

/-- A trivial profile capability (used where the capability's output is
irrelevant). -/
def capProfileTriv : List SpikeTrain → SyncProfile := fun _ => ⟨[], []⟩

/-- A trivial scalar capability. -/
def capScalarTriv : List SpikeTrain → ℚ := fun _ => 0

/-- An event with two units whose extracted windows are both empty. -/
def evTwoEmptyUnits : StimEvent :=
  ⟨0, 0, [(0, ⟨[], (-1, 1)⟩), (1, ⟨[], (-1, 1)⟩)]⟩

/-- An event with a single unit (a sub-population event). -/
def evOneUnit : StimEvent := ⟨0, 0, [(0, ⟨[1 / 2], (-1, 1)⟩)]⟩

/-- A profile capability returning sample positions `[0, 1]` and the raw
curve `[1/2]` for any input. -/
def capConstHalf : List SpikeTrain → SyncProfile := fun _ => ⟨[0, 1], [1 / 2]⟩

/-- An event with two units holding one spike each. -/
def evTwoUnits : StimEvent :=
  ⟨0, 0, [(0, ⟨[0], (-1, 1)⟩), (1, ⟨[1 / 2], (-1, 1)⟩)]⟩

/-- A profile capability whose raw curve is `[0, 2]` (values in `[0, k]` for
`k = 2` supplied series). -/
def capRawZeroTwo : List SpikeTrain → SyncProfile := fun _ => ⟨[0, 1], [0, 2]⟩

/-- A profile capability returning curves of length 5, 7 or 6 depending on
the number of supplied series (2, 3, other). -/
def capVarLen : List SpikeTrain → SyncProfile := fun ts =>
  if ts.length = 2 then ⟨[], [1, 1, 1, 1, 1]⟩
  else if ts.length = 3 then ⟨[], [0, 1, 0, 1, 0, 1, 0]⟩
  else ⟨[], [1, 0, 1, 0, 1, 0]⟩

/-- An event with three units. -/
def evThreeUnits : StimEvent :=
  ⟨1, 5, [(0, ⟨[], (-1, 1)⟩), (1, ⟨[0], (-1, 1)⟩), (2, ⟨[], (-1, 1)⟩)]⟩

/-- An event with four units. -/
def evFourUnits : StimEvent :=
  ⟨2, 9, [(0, ⟨[], (-1, 1)⟩), (1, ⟨[0], (-1, 1)⟩),
          (2, ⟨[], (-1, 1)⟩), (3, ⟨[1 / 4], (-1, 1)⟩)]⟩

/-- A recording with one unit, ten stimulus entries of which exactly two are
empty lists. -/
def recTenStims : Recording :=
  ⟨[(0, [5])],
   [.single 1, .group [], .single 2, .group [3, 4], .single 5, .group [],
    .single 6, .single 7, .single 8, .single 9], 1⟩

/-- A recording exposing the positional-argument slip of line 154: sampling
rate 10, one stimulus at sample 0, unit 0 spiking at sample 22 (inside a
2.5 s post-window, outside the 1.9 s default window) and unit 1 at sample
0. -/
def recPostEdge : Recording := ⟨[(0, [22]), (1, [0])], [.single 0], 10⟩

/-- A recording for the window-bound witness: sampling rate 10, one stimulus
at sample 7, one unit spiking at samples 3, 7 and 12. -/
def recWindow : Recording := ⟨[(0, [3, 7, 12])], [.single 7], 10⟩

/-- An empty recording (used where only filenames matter). -/
def recTriv : Recording := ⟨[], [], 1⟩

/-- The three-file directory of the ordering example. -/
def dirThreeDates : List (List Char × Recording) :=
  [("X_01-Jan-2020.pkl".toList, recTriv), ("X_15-Mar-2019.pkl".toList, recTriv),
   ("X_02-Feb-2020.pkl".toList, recTriv)]

/-- A directory whose single eligible file has no parsable date token. -/
def dirBadDate : List (List Char × Recording) :=
  [("X_nodate.pkl".toList, recTriv)]

/-! ## Helper lemmas -/

theorem truncToward_eq (q : ℚ) : truncToward q = if q < 0 then ⌈q⌉ else ⌊q⌋ := by
  unfold truncToward
  by_cases h : q < 0
  · rw [if_pos h]
    have hnum : q.num < 0 := Rat.num_neg.mpr h
    have h1 : q.num.tdiv q.den = -((-q.num).tdiv q.den) := by
      rw [← Int.neg_tdiv, neg_neg]
    have h2 : ((-q).num).tdiv ((-q).den : ℤ) = (-q).num / ((-q).den : ℤ) :=
      Int.tdiv_eq_ediv (by rw [Rat.num_neg_eq_neg_num]; omega) (Int.ofNat_nonneg _)
    rw [h1, show (-q.num) = (-q).num from (Rat.num_neg_eq_neg_num q).symm,
      show (q.den : ℤ) = ((-q).den : ℤ) by rw [Rat.neg_den], h2, ← Rat.floor_def,
      Int.floor_neg, neg_neg]
  · rw [if_neg h]
    rw [Int.tdiv_eq_ediv (Rat.num_nonneg.mpr (not_lt.mp h)) (Int.ofNat_nonneg _),
      ← Rat.floor_def]

theorem truncToward_le_self {q : ℚ} (h : 0 ≤ q) : (truncToward q : ℚ) ≤ q := by
  rw [truncToward_eq, if_neg (not_lt.mpr h)]
  exact_mod_cast Int.floor_le q

theorem self_le_truncToward {q : ℚ} (h : q ≤ 0) : q ≤ (truncToward q : ℚ) := by
  rw [truncToward_eq]
  by_cases h1 : q < 0
  · rw [if_pos h1]
    exact_mod_cast Int.le_ceil q
  · rw [if_neg h1]
    have h0 : q = 0 := le_antisymm h (not_lt.mp h1)
    subst h0
    simp

theorem truncToward_intCast (n : ℤ) : truncToward ((n : ℤ) : ℚ) = n := by
  rw [truncToward_eq]
  by_cases h : ((n : ℤ) : ℚ) < 0
  · rw [if_pos h, Int.ceil_intCast]
  · rw [if_neg h, Int.floor_intCast]

theorem dateLeb_trans (a b c : ℕ × ℕ × ℕ) (hab : dateLeb a b = true)
    (hbc : dateLeb b c = true) : dateLeb a c = true := by
  simp only [dateLeb, Bool.or_eq_true, Bool.and_eq_true, decide_eq_true_eq] at *
  omega

theorem dateLeb_total (a b : ℕ × ℕ × ℕ) : (dateLeb a b || dateLeb b a) = true := by
  simp only [dateLeb, Bool.or_eq_true, Bool.and_eq_true, decide_eq_true_eq]
  omega

theorem length_filterMap_enumFrom {α β : Type} (f : ℕ × α → Option β) (g : α → Bool)
    (hf : ∀ p : ℕ × α, (f p).isSome = g p.2) (l : List α) (n : ℕ) :
    ((List.enumFrom n l).filterMap f).length = (l.filter g).length := by
  induction l generalizing n with
  | nil => rfl
  | cons a l ih =>
    rw [List.enumFrom_cons, List.filterMap_cons]
    have ha := hf (n, a)
    cases hfa : f (n, a) with
    | none =>
      rw [hfa] at ha
      rw [List.filter_cons_of_neg (by simp at ha; simp [← ha])]
      exact ih (n + 1)
    | some b =>
      rw [hfa] at ha
      rw [List.filter_cons_of_pos (by simp at ha; simp [← ha]), List.length_cons,
        List.length_cons, ih (n + 1)]

theorem getD_take_of_lt {l : List ℚ} {m i : ℕ} (h : i < m) :
    (l.take m).getD i 0 = l.getD i 0 := by
  rw [List.getD_eq_getElem?_getD, List.getD_eq_getElem?_getD, List.getElem?_take]
  rw [if_pos h]

/-! ## Claim theorems -/

/-- C10: `extract_spike_trains_from_pickle` never reads the
`extract_entire_session` flag, so for every recording and every setting of the
timing parameters the two runs with the flag `true` (as the batch driver
passes it) and `false` (the default) return identical output. -/
theorem extract_entire_session_flag_noninterference (data : Recording)
    (pre_stimulus_time plot_start_time post_stimulus_time : ℚ) :
    extract_spike_trains_from_pickle data
        pre_stimulus_time plot_start_time post_stimulus_time true
      = extract_spike_trains_from_pickle data
        pre_stimulus_time plot_start_time post_stimulus_time false := rfl

/-- C7: the session scalar equals the scalar capability applied once to the
concatenation of all unit time-series of all events (event boundaries
ignored) when that collection has at least 2 series, and is `0` otherwise,
with no error raised. -/
theorem session_scalar_over_concatenated_series (spike_sync : List SpikeTrain → ℚ)
    (stim_event_spike_trains : List StimEvent) :
    calculate_session_sync_profile spike_sync stim_event_spike_trains =
      if 1 < ((stim_event_spike_trains.map
          (fun event => event.spike_trains.map Prod.snd)).flatten).length
      then spike_sync ((stim_event_spike_trains.map
          (fun event => event.spike_trains.map Prod.snd)).flatten)
      else 0 := by
  unfold calculate_session_sync_profile
  rw [List.flatMap_def]

/-- C2 (amended): an event supplying fewer than 2 unit spike trains (counting
trains whose windows are empty) contributes nothing to
`calculate_sync_profiles` — the result is the same as if the event were
absent, and such an event alone yields `([], 0, [])` — with no error
raised. -/
theorem subpopulation_event_contributes_nothing
    (spike_sync_profile : List SpikeTrain → SyncProfile)
    (event : StimEvent) (evs : List StimEvent)
    (h : event.spike_trains.length ≤ 1) :
    calculate_sync_profiles spike_sync_profile (event :: evs)
      = calculate_sync_profiles spike_sync_profile evs
    ∧ calculate_sync_profiles spike_sync_profile [event] = ([], 0, []) := by
  have hp : ¬(decide (1 < event.spike_trains.length) = true) := by
    simp only [decide_eq_true_eq]
    omega
  constructor
  · unfold calculate_sync_profiles
    rw [@List.filter_cons_of_neg _ (fun e => decide (1 < e.spike_trains.length)) event evs hp]
  · unfold calculate_sync_profiles
    rw [@List.filter_cons_of_neg _ (fun e => decide (1 < e.spike_trains.length)) event [] hp]
    rfl

theorem subpopulation_event_contributes_nothing_witness :
    evOneUnit.spike_trains.length ≤ 1
    ∧ (calculate_sync_profiles capConstHalf (evOneUnit :: [evTwoUnits, evTwoEmptyUnits])
        = calculate_sync_profiles capConstHalf [evTwoUnits, evTwoEmptyUnits]
      ∧ calculate_sync_profiles capConstHalf [evOneUnit] = ([], 0, [])) :=
  ⟨by decide, subpopulation_event_contributes_nothing capConstHalf evOneUnit
    [evTwoUnits, evTwoEmptyUnits] (by decide)⟩

/-- C2 counterexample: for an event in which zero of its two units have a
non-empty spike-time window, `calculate_sync_profiles` still appends a
(normalised) profile and records adaptive-interval data, because the source
gates only on the number of supplied trains, not on their emptiness. -/
theorem event_without_nonempty_windows_still_contributes :
    (evTwoEmptyUnits.spike_trains.filter (fun u => !u.2.spikes.isEmpty)).length < 2
    ∧ calculate_sync_profiles capConstHalf [evTwoEmptyUnits] = ([1 / 4], 1 / 4, [1]) := by
  constructor
  · decide
  · norm_num [calculate_sync_profiles, normalized_sync_profile, minLength, listMean, diffs,
      capConstHalf, evTwoEmptyUnits, List.range_succ]

/-- C3: for an event whose profile is computed (more than one supplied
series), every stored profile value is the capability's raw curve value at
the same index divided by exactly this event's unit-series count, and if the
raw values lie in `[0, k]` for the `k` supplied series then every normalised
value lies in `[0, 1]`. -/
theorem profile_values_normalized_by_event_unit_count
    (spike_sync_profile : List SpikeTrain → SyncProfile) (event : StimEvent)
    (hk : 1 < event.spike_trains.length)
    (hraw : ∀ v ∈ (spike_sync_profile (event.spike_trains.map Prod.snd)).y,
      0 ≤ v ∧ v ≤ (event.spike_trains.length : ℚ)) :
    (∀ i : ℕ, (normalized_sync_profile spike_sync_profile event).getD i 0
        = (spike_sync_profile (event.spike_trains.map Prod.snd)).y.getD i 0
          / (event.spike_trains.length : ℚ))
    ∧ ∀ v ∈ normalized_sync_profile spike_sync_profile event, 0 ≤ v ∧ v ≤ 1 := by
  constructor
  · intro i
    simp only [normalized_sync_profile, List.length_map]
    rw [List.getD_eq_getElem?_getD, List.getD_eq_getElem?_getD, List.getElem?_map]
    cases h : (spike_sync_profile (event.spike_trains.map Prod.snd)).y[i]? with
    | none => simp [zero_div]
    | some v => simp
  · intro v hv
    simp only [normalized_sync_profile, List.length_map] at hv
    obtain ⟨w, hw, rfl⟩ := List.mem_map.mp hv
    have hk0 : (0 : ℚ) < (event.spike_trains.length : ℚ) := by
      exact_mod_cast Nat.lt_of_lt_of_le Nat.zero_lt_one (le_of_lt hk)
    obtain ⟨h0, h1⟩ := hraw w hw
    exact ⟨div_nonneg h0 (le_of_lt hk0), (div_le_one hk0).mpr h1⟩

theorem profile_values_normalized_by_event_unit_count_witness :
    1 < evTwoUnits.spike_trains.length
    ∧ ((∀ i : ℕ, (normalized_sync_profile capRawZeroTwo evTwoUnits).getD i 0
        = (capRawZeroTwo (evTwoUnits.spike_trains.map Prod.snd)).y.getD i 0
          / (evTwoUnits.spike_trains.length : ℚ))
      ∧ ∀ v ∈ normalized_sync_profile capRawZeroTwo evTwoUnits, 0 ≤ v ∧ v ≤ 1) :=
  ⟨by decide, profile_values_normalized_by_event_unit_count capRawZeroTwo evTwoUnits
    (by decide)
    (by
      intro v hv
      have h2 : ((evTwoUnits.spike_trains.length : ℕ) : ℚ) = 2 := by
        norm_num [evTwoUnits]
      rw [h2]
      have hv2 : v = 0 ∨ v = 2 := by
        simpa [capRawZeroTwo] using hv
      rcases hv2 with rfl | rfl <;> norm_num)⟩

/-- C4: the averaged profile has length equal to the minimum profile length
over the contributing events, each entry is the mean over events of the
corresponding entry of the truncated profiles, the scalar is the mean of the
averaged profile, and with zero contributing profiles the result degenerates
to `([], 0, [])` with no error. -/
theorem truncated_averaging_and_degenerate_empty
    (spike_sync_profile : List SpikeTrain → SyncProfile)
    (stim_event_spike_trains : List StimEvent) :
    let profiles := (stim_event_spike_trains.filter
        (fun event => decide (1 < event.spike_trains.length))).map
        (normalized_sync_profile spike_sync_profile)
    let r := calculate_sync_profiles spike_sync_profile stim_event_spike_trains
    r.1.length = minLength profiles
    ∧ r.1 = (List.range (minLength profiles)).map (fun i =>
        listMean (profiles.map (fun p => (p.take (minLength profiles)).getD i 0)))
    ∧ r.2.1 = listMean r.1
    ∧ (profiles = [] → r = ([], 0, [])) := by
  intro profiles r
  have hr : r = calculate_sync_profiles spike_sync_profile stim_event_spike_trains := rfl
  by_cases hq : profiles = []
  · have hfil : stim_event_spike_trains.filter
        (fun event => decide (1 < event.spike_trains.length)) = [] :=
      List.map_eq_nil.mp hq
    have hrv : r = ([], 0, []) := by
      rw [hr]
      unfold calculate_sync_profiles
      simp only [hfil, List.map_nil, List.flatMap_nil, List.isEmpty_nil, if_true]
    rw [hrv, hq]
    refine ⟨by simp [minLength], by simp [minLength], by simp [listMean], fun _ => rfl⟩
  · have hne : ¬(profiles.map
        (fun profile => profile.take (minLength profiles))).isEmpty = true := by
      simp only [List.isEmpty_eq_true, List.map_eq_nil]
      exact hq
    have hrv : r = ((List.range (minLength profiles)).map (fun i =>
        ((profiles.map (fun profile => profile.take (minLength profiles))).map
          (fun profile => profile.getD i 0)).sum
          / ((profiles.map (fun profile => profile.take (minLength profiles))).length : ℚ)),
        listMean ((List.range (minLength profiles)).map (fun i =>
        ((profiles.map (fun profile => profile.take (minLength profiles))).map
          (fun profile => profile.getD i 0)).sum
          / ((profiles.map (fun profile => profile.take (minLength profiles))).length : ℚ))),
        (stim_event_spike_trains.filter
          (fun event => decide (1 < event.spike_trains.length))).flatMap
          (fun event => diffs (spike_sync_profile (event.spike_trains.map Prod.snd)).x)) := by
      rw [hr]
      unfold calculate_sync_profiles
      simp only [if_neg hne]
    refine ⟨?_, ?_, ?_, fun habs => absurd habs hq⟩
    · rw [hrv]
      simp [minLength]
    · rw [hrv]
      simp only [List.map_map, List.length_map, listMean]
      rfl
    · rw [hrv]

theorem truncated_averaging_and_degenerate_empty_witness :
    let profiles := (([evTwoUnits, evThreeUnits, evFourUnits].filter
        (fun event => decide (1 < event.spike_trains.length))).map
        (normalized_sync_profile capVarLen))
    let r := calculate_sync_profiles capVarLen [evTwoUnits, evThreeUnits, evFourUnits]
    r.1.length = minLength profiles
    ∧ r.1 = (List.range (minLength profiles)).map (fun i =>
        listMean (profiles.map (fun p => (p.take (minLength profiles)).getD i 0)))
    ∧ r.2.1 = listMean r.1
    ∧ (profiles = [] → r = ([], 0, [])) :=
  truncated_averaging_and_degenerate_empty capVarLen [evTwoUnits, evThreeUnits, evFourUnits]

/-- C5: with a positive sampling rate and `pre_stimulus_time < 0 <
post_stimulus_time`, every extracted spike time of every unit window of every
produced event lies within `[pre_stimulus_time, post_stimulus_time]`
inclusive — the integer sample bounds being obtained by truncation toward
zero. -/
theorem extracted_spike_times_within_window (data : Recording)
    (pre_stimulus_time plot_start_time post_stimulus_time : ℚ)
    (extract_flag : Bool)
    (hsr : 0 < data.sampling_rate) (hpre : pre_stimulus_time < 0)
    (hpost : 0 < post_stimulus_time) :
    ∀ event ∈ (extract_spike_trains_from_pickle data
        pre_stimulus_time plot_start_time post_stimulus_time extract_flag).1,
      ∀ u ∈ event.spike_trains, ∀ v ∈ u.2.spikes,
        pre_stimulus_time ≤ v ∧ v ≤ post_stimulus_time := by
  intro event hev u hu v hv
  simp only [extract_spike_trains_from_pickle] at hev
  obtain ⟨p, hp, hsome⟩ := List.mem_filterMap.mp hev
  rcases htl : p.2.timestamps with _ | ⟨stim_time, rest⟩
  · rw [htl] at hsome
    exact absurd hsome (by simp)
  · rw [htl] at hsome
    simp only [Option.some_inj] at hsome
    subst hsome
    simp only at hu
    obtain ⟨w, hw, rfl⟩ := List.mem_map.mp hu
    simp only at hv
    obtain ⟨t, ht, rfl⟩ := List.mem_map.mp hv
    obtain ⟨htmem, htb⟩ := List.mem_filter.mp ht
    simp only [decide_eq_true_eq] at htb
    obtain ⟨hlow, hhigh⟩ := htb
    constructor
    · rw [le_div_iff hsr]
      calc pre_stimulus_time * data.sampling_rate
          ≤ (truncToward (pre_stimulus_time * data.sampling_rate) : ℚ) :=
            self_le_truncToward (le_of_lt (mul_neg_of_neg_of_pos hpre hsr))
        _ ≤ ((t - stim_time : ℤ) : ℚ) := by
            exact_mod_cast (by omega : truncToward (pre_stimulus_time * data.sampling_rate)
              ≤ t - stim_time)
    · rw [div_le_iff hsr]
      calc ((t - stim_time : ℤ) : ℚ)
          ≤ (truncToward (post_stimulus_time * data.sampling_rate) : ℚ) := by
            exact_mod_cast (by omega : t - stim_time
              ≤ truncToward (post_stimulus_time * data.sampling_rate))
        _ ≤ post_stimulus_time * data.sampling_rate :=
            truncToward_le_self (le_of_lt (mul_pos hpost hsr))

theorem extracted_spike_times_within_window_witness :
    (0 : ℚ) < recWindow.sampling_rate ∧ (-(1 : ℚ) / 2) < 0 ∧ (0 : ℚ) < 1 / 2
    ∧ ∀ event ∈ (extract_spike_trains_from_pickle recWindow
        (-(1 : ℚ) / 2) 0 (1 / 2) false).1,
      ∀ u ∈ event.spike_trains, ∀ v ∈ u.2.spikes,
        (-(1 : ℚ) / 2) ≤ v ∧ v ≤ 1 / 2 :=
  ⟨by norm_num [recWindow], by norm_num, by norm_num,
    extracted_spike_times_within_window recWindow (-(1 : ℚ) / 2) 0 (1 / 2) false
      (by norm_num [recWindow]) (by norm_num) (by norm_num)⟩

theorem extract_length_eq_nonempty_count (data : Recording)
    (pre_stimulus_time plot_start_time post_stimulus_time : ℚ) (extract_flag : Bool) :
    (extract_spike_trains_from_pickle data
        pre_stimulus_time plot_start_time post_stimulus_time extract_flag).1.length
      = (data.stim_trains.filter (fun e => !e.timestamps.isEmpty)).length := by
  simp only [extract_spike_trains_from_pickle]
  exact length_filterMap_enumFrom _ _
    (by
      intro p
      rcases h : p.2.timestamps with _ | ⟨t, ts⟩ <;> simp [h])
    data.stim_trains 0

theorem extract_warning_eq (data : Recording)
    (pre_stimulus_time plot_start_time post_stimulus_time : ℚ) (extract_flag : Bool) :
    (extract_spike_trains_from_pickle data
        pre_stimulus_time plot_start_time post_stimulus_time extract_flag).2
      = (if (extract_spike_trains_from_pickle data
            pre_stimulus_time plot_start_time post_stimulus_time extract_flag).1.length
            = data.stim_trains.length
         then none
         else some ((extract_spike_trains_from_pickle data
            pre_stimulus_time plot_start_time post_stimulus_time extract_flag).1.length,
            data.stim_trains.length)) := rfl

/-- C6: a stimulus entry with an empty timestamp list yields no event (it is
skipped, not zero-filled), so the produced event count equals the number of
entries with a non-empty timestamp list; the count-mismatch warning carrying
(extracted, expected) is emitted exactly when the two counts differ; and on
the concrete ten-entry recording with two empty entries, for every parameter
setting, exactly 8 events are produced and the warning reads `(8, 10)`. -/
theorem empty_stimulus_entries_skipped_and_reported (data : Recording)
    (pre_stimulus_time plot_start_time post_stimulus_time : ℚ) (extract_flag : Bool) :
    (extract_spike_trains_from_pickle data
        pre_stimulus_time plot_start_time post_stimulus_time extract_flag).1.length
      = (data.stim_trains.filter (fun e => !e.timestamps.isEmpty)).length
    ∧ (extract_spike_trains_from_pickle data
        pre_stimulus_time plot_start_time post_stimulus_time extract_flag).2
      = (if (extract_spike_trains_from_pickle data
            pre_stimulus_time plot_start_time post_stimulus_time extract_flag).1.length
            = data.stim_trains.length
         then none
         else some ((extract_spike_trains_from_pickle data
            pre_stimulus_time plot_start_time post_stimulus_time extract_flag).1.length,
            data.stim_trains.length))
    ∧ (extract_spike_trains_from_pickle recTenStims
        pre_stimulus_time plot_start_time post_stimulus_time extract_flag).1.length = 8
    ∧ (extract_spike_trains_from_pickle recTenStims
        pre_stimulus_time plot_start_time post_stimulus_time extract_flag).2 = some (8, 10) := by
  have h8 : (extract_spike_trains_from_pickle recTenStims
      pre_stimulus_time plot_start_time post_stimulus_time extract_flag).1.length = 8 := by
    rw [extract_length_eq_nonempty_count]
    decide
  refine ⟨extract_length_eq_nonempty_count data
      pre_stimulus_time plot_start_time post_stimulus_time extract_flag,
    extract_warning_eq data
      pre_stimulus_time plot_start_time post_stimulus_time extract_flag, h8, ?_⟩
  rw [extract_warning_eq, h8]
  decide

theorem pairwise_dateLeb_mergeSort (l : List (List Char × Recording)) :
    (l.mergeSort (fun a b =>
        dateLeb ((session_date_key a.1).getD (0, 0, 0))
          ((session_date_key b.1).getD (0, 0, 0)))).Pairwise
      (fun a b => dateLeb ((session_date_key a.1).getD (0, 0, 0))
        ((session_date_key b.1).getD (0, 0, 0)) = true) := by
  have hs := @List.sorted_mergeSort (List Char × Recording)
    (fun a b => dateLeb ((session_date_key a.1).getD (0, 0, 0))
      ((session_date_key b.1).getD (0, 0, 0)))
    (fun a b c hab hbc => dateLeb_trans _ _ _ hab hbc)
    (fun a b => dateLeb_total _ _) l
  exact hs

/-- C8: for every directory whose eligible (`.pkl`) filenames all carry a
parsable `DD-Mon-YYYY` token after the first underscore, the batch driver
succeeds and its result sequence is the eligible files rearranged into
ascending date order, each file contributing its session name and session
scalar in exactly that order. -/
theorem sessions_processed_in_date_order
    (spike_sync_profile : List SpikeTrain → SyncProfile)
    (spike_sync : List SpikeTrain → ℚ)
    (directory : List (List Char × Recording))
    (pre_stimulus_time plot_start_time post_stimulus_time full_post_stimulus_time : ℚ)
    (h : ∀ f ∈ directory.filter (fun f => endsWithDotPkl f.1),
      (session_date_key f.1).isSome = true) :
    ∃ sorted_paths : List (List Char × Recording),
      sorted_paths.Perm (directory.filter (fun f => endsWithDotPkl f.1))
      ∧ sorted_paths.Pairwise (fun a b =>
          dateLeb ((session_date_key a.1).getD (0, 0, 0))
            ((session_date_key b.1).getD (0, 0, 0)) = true)
      ∧ process_multiple_sessions_from_directory spike_sync_profile spike_sync directory
          pre_stimulus_time plot_start_time post_stimulus_time full_post_stimulus_time
        = Except.ok (sorted_paths.map (fun f =>
            (session_name f.1,
             calculate_session_sync_profile spike_sync
               (extract_spike_trains_from_pickle f.2 pre_stimulus_time
                 full_post_stimulus_time extract_default_post_stimulus_time true).1))) := by
  refine ⟨(directory.filter (fun f => endsWithDotPkl f.1)).mergeSort (fun a b =>
      dateLeb ((session_date_key a.1).getD (0, 0, 0))
        ((session_date_key b.1).getD (0, 0, 0))),
    List.mergeSort_perm _ _, pairwise_dateLeb_mergeSort _, ?_⟩
  simp only [process_multiple_sessions_from_directory]
  rw [if_pos (List.all_eq_true.mpr h)]

theorem sessions_processed_in_date_order_witness :
    ∃ sorted_paths : List (List Char × Recording),
      sorted_paths.Perm (dirThreeDates.filter (fun f => endsWithDotPkl f.1))
      ∧ sorted_paths.Pairwise (fun a b =>
          dateLeb ((session_date_key a.1).getD (0, 0, 0))
            ((session_date_key b.1).getD (0, 0, 0)) = true)
      ∧ process_multiple_sessions_from_directory capProfileTriv capScalarTriv dirThreeDates
          (-(6 : ℚ) / 5) (-(7 : ℚ) / 10) ((7 : ℚ) / 5) ((19 : ℚ) / 10)
        = Except.ok (sorted_paths.map (fun f =>
            (session_name f.1,
             calculate_session_sync_profile capScalarTriv
               (extract_spike_trains_from_pickle f.2 (-(6 : ℚ) / 5)
                 ((19 : ℚ) / 10) extract_default_post_stimulus_time true).1))) :=
  sessions_processed_in_date_order capProfileTriv capScalarTriv dirThreeDates
    (-(6 : ℚ) / 5) (-(7 : ℚ) / 10) ((7 : ℚ) / 5) ((19 : ℚ) / 10) (by decide)

/-- C9: a directory containing at least one eligible file whose name lacks a
valid date token makes the whole batch run return a propagated error: no
session result is appended for that file or any other. -/
theorem invalid_date_token_aborts_batch
    (spike_sync_profile : List SpikeTrain → SyncProfile)
    (spike_sync : List SpikeTrain → ℚ)
    (directory : List (List Char × Recording))
    (pre_stimulus_time plot_start_time post_stimulus_time full_post_stimulus_time : ℚ)
    (f : List Char × Recording) (hmem : f ∈ directory)
    (helig : endsWithDotPkl f.1 = true) (hbad : session_date_key f.1 = none) :
    ∃ msg, process_multiple_sessions_from_directory spike_sync_profile spike_sync directory
        pre_stimulus_time plot_start_time post_stimulus_time full_post_stimulus_time
      = Except.error msg := by
  have hcond : ¬((directory.filter (fun q => endsWithDotPkl q.1)).all
      (fun q => (session_date_key q.1).isSome) = true) := by
    intro hall
    have h2 := List.all_eq_true.mp hall f (List.mem_filter.mpr ⟨hmem, helig⟩)
    rw [hbad] at h2
    exact absurd h2 (by simp)
  refine ⟨['F', 'i', 'l', 'e', 'n', 'a', 'm', 'e', 'D', 'a', 't', 'e'], ?_⟩
  simp only [process_multiple_sessions_from_directory]
  rw [if_neg hcond]

theorem invalid_date_token_aborts_batch_witness :
    ("X_nodate.pkl".toList, recTriv) ∈ dirBadDate
    ∧ endsWithDotPkl "X_nodate.pkl".toList = true
    ∧ session_date_key "X_nodate.pkl".toList = none
    ∧ ∃ msg, process_multiple_sessions_from_directory capProfileTriv capScalarTriv dirBadDate
        0 0 0 0 = Except.error msg :=
  ⟨by simp [dirBadDate], by decide, by decide,
    invalid_date_token_aborts_batch capProfileTriv capScalarTriv dirBadDate 0 0 0 0
      ("X_nodate.pkl".toList, recTriv) (by simp [dirBadDate]) (by decide) (by decide)⟩

/-- C1 (the code evaluated at a failing input): invoking the extraction
exactly as the batch driver's line 154 does — `full_post_stimulus_time`
passed as the third positional argument, which is the unused
`plot_start_time`, so `post_stimulus_time` keeps its default `1.9` — with
`pre_stimulus_time = -1` and `full_post_stimulus_time = 5/2` on
`recPostEdge` (sampling rate 10, one stimulus at sample 0): the claimed post
edge `int(2.5 * 10) = 25` would keep unit 0's spike at sample 22, but the
window actually ends at the default edge `int(1.9 * 10) = 19`, so unit 0's
extracted window is empty while unit 1 keeps its spike at time 0. -/
theorem extraction_post_edge_is_default_not_full_post :
    truncToward ((5 / 2 : ℚ) * recPostEdge.sampling_rate) = 25
    ∧ truncToward (extract_default_post_stimulus_time * recPostEdge.sampling_rate) = 19
    ∧ ((extract_spike_trains_from_pickle recPostEdge (-1) (5 / 2)
          extract_default_post_stimulus_time true).1.map
        (fun event => event.spike_trains.map (fun u => (u.1, u.2.spikes))))
      = [[(0, []), (1, [0])]] := by
  have e25 : truncToward ((5 / 2 : ℚ) * recPostEdge.sampling_rate) = 25 := by
    rw [show ((5 / 2 : ℚ) * recPostEdge.sampling_rate) = ((25 : ℤ) : ℚ) by
      norm_num [recPostEdge]]
    exact truncToward_intCast 25
  have e19 : truncToward (extract_default_post_stimulus_time * recPostEdge.sampling_rate)
      = 19 := by
    rw [show (extract_default_post_stimulus_time * recPostEdge.sampling_rate)
        = ((19 : ℤ) : ℚ) by norm_num [extract_default_post_stimulus_time, recPostEdge]]
    exact truncToward_intCast 19
  have em10 : truncToward ((-1 : ℚ) * recPostEdge.sampling_rate) = -10 := by
    rw [show ((-1 : ℚ) * recPostEdge.sampling_rate) = (((-10 : ℤ)) : ℚ) by
      norm_num [recPostEdge]]
    exact truncToward_intCast (-10)
  refine ⟨e25, e19, ?_⟩
  simp only [extract_spike_trains_from_pickle]
  rw [show recPostEdge.sampling_rate = (10 : ℚ) from rfl] at em10 e19
  simp only [recPostEdge, StimEntry.timestamps, em10, e19]
  norm_num [List.enum, List.enumFrom, List.filterMap_cons, StimEntry.timestamps]
